import Mathlib

/-!
Shallow embedding of the react-carousel component (src/carousel/index.tsx,
src/carousel/animator.ts and the historical variant in src/unnamed/part_001),
together with theorems checking the natural-language specification against it.

JS numbers are modelled by exact rationals (ℚ) for geometry and by integers /
naturals for indices.  JS `NaN`-producing divisions only occur as `0 / 0` in
the visibility classifier (shown to be observationally equal to ℚ's
`0 / 0 = 0` there, since both fail every `≥ threshold` test), so ℚ division is
a faithful idealisation of the arithmetic the claims exercise.
-/

namespace Carousel

/-! ## Geometry (src/carousel/index.tsx) -/

/-- Geometry of the scroll viewport, as produced by `getViewportInfo`:
`viewportWidth = clientWidth`, `viewportLeft = scrollLeft`. -/
structure ViewportInfo where
  viewportWidth : ℚ
  viewportLeft : ℚ
  deriving DecidableEq

/-- `viewportRight = scrollLeft + clientWidth` (from `getViewportInfo`). -/
def ViewportInfo.viewportRight (v : ViewportInfo) : ℚ :=
  v.viewportLeft + v.viewportWidth

/-- `viewportCenter = scrollLeft + clientWidth / 2` (from `getViewportInfo`). -/
def ViewportInfo.viewportCenter (v : ViewportInfo) : ℚ :=
  v.viewportLeft + v.viewportWidth / 2

/-- Cached geometry of one carousel item: `offsetLeft` and `itemWidth`
(captured from the DOM element on mount). -/
structure ItemInfo where
  offsetLeft : ℚ
  itemWidth : ℚ
  deriving DecidableEq

/-- The `ItemVisibility` enum of src/carousel/index.tsx. -/
inductive ItemVisibility where
  | notVisible
  | fullyVisible
  | partiallyVisible
  deriving DecidableEq, Repr

/-- Embedding of `calculateItemVisibility` (src/carousel/index.tsx lines 31-49).
The JS computes `visiblePercentage = visibleWidth / item.itemWidth`; when
`itemWidth = 0` the only reachable numerator in the non-outside branch is `0`
(the item is a single point inside the window), and JS `0/0 = NaN` fails both
threshold tests exactly as ℚ's `0/0 = 0` does, so the embedding is
observationally faithful. -/
def calculateItemVisibility (viewport : ViewportInfo) (item : ItemInfo) :
    ItemVisibility :=
  let itemLeft := item.offsetLeft
  let itemRight := itemLeft + item.itemWidth
  if itemRight < viewport.viewportLeft ∨ itemLeft > viewport.viewportRight then
    ItemVisibility.notVisible
  else
    -- Item is partially or fully contained by viewport
    let visibleLeft := max itemLeft viewport.viewportLeft
    let visibleRight := min itemRight viewport.viewportRight
    let visibleWidth := visibleRight - visibleLeft
    let visiblePercentage := visibleWidth / item.itemWidth
    if visiblePercentage ≥ 95 / 100 then ItemVisibility.fullyVisible
    else if visiblePercentage ≥ 5 / 100 then ItemVisibility.partiallyVisible
    else ItemVisibility.notVisible

/-- Embedding of `calculateIsItemInMiddleOfViewport`
(src/carousel/index.tsx lines 51-55). -/
def calculateIsItemInMiddleOfViewport (viewport : ViewportInfo)
    (item : ItemInfo) : Bool :=
  let itemLeft := item.offsetLeft
  let itemRight := itemLeft + item.itemWidth
  decide (itemLeft ≤ viewport.viewportCenter ∧
    itemRight ≥ viewport.viewportCenter)

/-- The spec's reference definition of the visibility classifier (§4.1),
written from the spec's words for comparison with `calculateItemVisibility`:
guard `extent ≤ 0`, clamped overlap, fraction thresholds 0.95 / 0.05. -/
def specItemVisibility (viewport : ViewportInfo) (item : ItemInfo) :
    ItemVisibility :=
  if item.itemWidth ≤ 0 then ItemVisibility.notVisible
  else
    let overlap := max 0 (min (item.offsetLeft + item.itemWidth) viewport.viewportRight
      - max item.offsetLeft viewport.viewportLeft)
    let visibleFraction := overlap / item.itemWidth
    if visibleFraction ≥ 95 / 100 then ItemVisibility.fullyVisible
    else if visibleFraction ≥ 5 / 100 then ItemVisibility.partiallyVisible
    else ItemVisibility.notVisible

/-- The `CarouselScrollBehavior` union type (src/unnamed/part_001 line 59,
the superset variant with all three behaviors). -/
inductive CarouselScrollBehavior where
  | scrollToLeft
  | scrollToMiddle
  | scrollToRight
  deriving DecidableEq, Repr

/-- Embedding of `getScrollOffset` (src/unnamed/part_001 lines 233-245; the
variant at src/carousel/index.tsx lines 240-250 is the restriction to the
first two behaviors).  The enum is closed, so the JS `NaN` fallback for an
unknown behavior is unreachable. -/
def getScrollOffset (scrollBehavior : CarouselScrollBehavior)
    (viewport : ViewportInfo) (item : ItemInfo) : ℚ :=
  match scrollBehavior with
  | .scrollToLeft => item.offsetLeft
  | .scrollToMiddle =>
      max 0 (item.offsetLeft - (viewport.viewportWidth / 2 - item.itemWidth / 2))
  | .scrollToRight =>
      max 0 (item.offsetLeft + item.itemWidth - viewport.viewportWidth)

/-- Embedding of `easeInOutQuad` (src/carousel/animator.ts lines 73-80). -/
def easeInOutQuad (time start delta duration : ℚ) : ℚ :=
  let t := time / (duration / 2)
  if t < 1 then delta / 2 * t * t + start
  else
    let t1 := t - 1;
    -delta / 2 * (t1 * (t1 - 2) - 1) + start

/-! ## Animator (src/carousel/animator.ts)

`Animator.startAnimation` closes over `from`, `delta = to - from`, `duration`,
a mutable `startTime : number | null`, a mutable `animationHandle`
(the pending `requestAnimationFrame` id, `null` when no tick is pending) and
the single-resolution promise `end`.  We embed that closure state as
`AnimState` and the two callbacks `step` and `cancel` as state transformers;
a scheduler trace is a list of events (ticks with their timestamps,
interleaved with `cancel()` calls), where a tick fires only while a frame is
actually scheduled. -/

/-- The parameters captured by one `startAnimation` call. -/
structure AnimConfig where
  easingFunction : ℚ → ℚ → ℚ → ℚ → ℚ
  fromValue : ℚ
  toValue : ℚ
  duration : ℚ

/-- `delta = to - from` (src/carousel/animator.ts line 32). -/
def AnimConfig.delta (c : AnimConfig) : ℚ := c.toValue - c.fromValue

/-- The mutable state of a started animation: the recorded `startTime`
(`none` = JS `null`), whether a tick is scheduled (`animationHandle` is
non-null), the promise state (`none` = pending, `some b` = settled with `b`),
and the current value of `element[property]`. -/
structure AnimState where
  startTime : Option ℚ
  scheduled : Bool
  resolved : Option Bool
  value : ℚ
  deriving DecidableEq

/-- The `if (!startTime) startTime = timestamp` guard at the top of `step`
(src/carousel/animator.ts lines 41-43).  JS `!startTime` is truthiness, so a
recorded start timestamp of exactly `0` is re-recorded as well. -/
def recordStartTime (startTime : Option ℚ) (timestamp : ℚ) : ℚ :=
  match startTime with
  | none => timestamp
  | some t => if t = 0 then timestamp else t

/-- Settling a JS promise: `resolve b` is a no-op when already settled. -/
def resolvePromise (resolved : Option Bool) (b : Bool) : Option Bool :=
  match resolved with
  | none => some b
  | some b0 => some b0

/-- Embedding of the `step` callback (src/carousel/animator.ts lines 40-56):
record the start time on the first frame, then either write the eased value
and request another frame (`time ≤ duration`) or snap to the target, clear
the handle and resolve with `true`. -/
def step (c : AnimConfig) (s : AnimState) (timestamp : ℚ) : AnimState :=
  let st := recordStartTime s.startTime timestamp
  let time := timestamp - st
  if time ≤ c.duration then
    { startTime := some st, scheduled := true, resolved := s.resolved,
      value := c.easingFunction time c.fromValue c.delta c.duration }
  else
    { startTime := some st, scheduled := false,
      resolved := resolvePromise s.resolved true, value := c.toValue }

/-- Embedding of the `cancel` closure (src/carousel/animator.ts lines 58-63):
unschedule the pending frame, if any, and resolve the promise with `false`
(a no-op when it is already settled).  It never touches `element[property]`. -/
def cancelAnim (s : AnimState) : AnimState :=
  { startTime := s.startTime, scheduled := false,
    resolved := resolvePromise s.resolved false, value := s.value }

/-- The state right after `startAnimation` returns: no start time recorded,
the first frame scheduled, the promise pending, the property still at the
captured `from` value. -/
def initAnimState (fromValue : ℚ) : AnimState :=
  { startTime := none, scheduled := true, resolved := none, value := fromValue }

/-- One scheduler event: a tick delivered at a timestamp, or a `cancel()`
call. -/
inductive AnimEvent where
  | tick (timestamp : ℚ)
  | cancel
  deriving DecidableEq

/-- Apply one event: a tick runs `step` only while a frame is scheduled
(`cancelAnimationFrame` removes pending ticks, and nothing reschedules from
outside `step`). -/
def applyEvent (c : AnimConfig) (s : AnimState) : AnimEvent → AnimState
  | .tick t => if s.scheduled then step c s t else s
  | .cancel => cancelAnim s

/-- Run a whole scheduler trace. -/
def run (c : AnimConfig) (s : AnimState) : List AnimEvent → AnimState
  | [] => s
  | e :: evs => run c (applyEvent c s e) evs

/-- The trace contains a tick that executes the natural-completion branch:
some prefix leaves a frame scheduled and the next event is a tick whose
elapsed time exceeds the duration. -/
def completesAt (c : AnimConfig) (s : AnimState) (evs : List AnimEvent) :
    Prop :=
  ∃ l₁ t l₂, evs = l₁ ++ AnimEvent.tick t :: l₂ ∧
    (run c s l₁).scheduled = true ∧
    c.duration < t - recordStartTime (run c s l₁).startTime t

/-- A sample animation configuration (the component's defaults: 300 ms,
quadratic in-out easing), used by concrete witnesses. -/
def sampleConfig : AnimConfig :=
  { easingFunction := easeInOutQuad, fromValue := 0, toValue := 100,
    duration := 300 }

/-! ## Scroll-state resolution (src/carousel/index.tsx `updateScrollState`)

The `for` loop over the mounted items is embedded as a structural recursion
`scanItems` carrying the loop's four accumulator variables; the two
`Infinity`-initialised minima are modelled as `Option ℕ` with `none` playing
`Infinity` (`Math.min(Infinity, i) = i`). -/

/-- The union type of src/carousel/index.tsx line 57 (this variant has no
`ScrollToRight`; an unrecognised value would reach the JS `NaN` fallback,
which the closed enum makes unreachable). -/
inductive IndexScrollBehavior where
  | scrollToLeft
  | scrollToMiddle
  deriving DecidableEq, Repr

/-- The loop accumulators of `updateScrollState`
(src/carousel/index.tsx lines 276-279). -/
structure ScanAcc where
  middleOfViewportIndex : ℕ
  minPartialIndex : Option ℕ
  minVisibleIndex : Option ℕ
  maxVisibleIndex : ℕ
  deriving DecidableEq, Repr

/-- `Math.min` against a possibly-`Infinity` accumulator. -/
def jsMinIdx (acc : Option ℕ) (i : ℕ) : Option ℕ :=
  match acc with
  | none => some i
  | some m => some (min m i)

/-- One iteration of the `updateScrollState` loop
(src/carousel/index.tsx lines 280-293). -/
def scanStep (v : ViewportInfo) (itemIndex : ℕ) (item : ItemInfo)
    (a : ScanAcc) : ScanAcc :=
  let a1 :=
    match calculateItemVisibility v item with
    | .partiallyVisible =>
        { a with minPartialIndex := jsMinIdx a.minPartialIndex itemIndex }
    | .fullyVisible =>
        { a with minVisibleIndex := jsMinIdx a.minVisibleIndex itemIndex,
                 maxVisibleIndex := max a.maxVisibleIndex itemIndex }
    | .notVisible => a
  if calculateIsItemInMiddleOfViewport v item then
    { a1 with middleOfViewportIndex := itemIndex }
  else a1

/-- The whole loop, from item index `k` upward. -/
def scanItems (v : ViewportInfo) : ℕ → List ItemInfo → ScanAcc → ScanAcc
  | _, [], a => a
  | k, item :: rest, a => scanItems v (k + 1) rest (scanStep v k item a)

/-- The accumulators' initial values
(src/carousel/index.tsx lines 276-279). -/
def initScanAcc : ScanAcc :=
  { middleOfViewportIndex := 0, minPartialIndex := none,
    minVisibleIndex := none, maxVisibleIndex := 0 }

/-- The part of `ICarouselState` written by `updateScrollState`. -/
structure ScrollStateResult where
  currentScrollIndex : ℕ
  isFullyScrolledLeft : Bool
  isFullyScrolledRight : Bool
  deriving DecidableEq, Repr

/-- Embedding of `updateScrollState`'s computation
(src/carousel/index.tsx lines 272-311): run the scan, replace an
`Infinity` minimum by `0` (`if (!isFinite(minVisibleIndex))`), then derive
the current index and the two boundary flags.  The JS flag
`maxVisibleIndex === itemCount - 1` is written `maxVisibleIndex + 1 =
itemCount` over ℕ: for `itemCount ≥ 1` the two are the same equation, and for
`itemCount = 0` both are false (JS compares `0 === -1`) — the flag is decided
by the `itemCount === 0` disjunct there. -/
def updateScrollState (behavior : IndexScrollBehavior) (v : ViewportInfo)
    (items : List ItemInfo) : ScrollStateResult :=
  let itemCount := items.length
  let a := scanItems v 0 items initScanAcc
  -- Handle empty collection or zero-width items
  let minVisibleIndex := a.minVisibleIndex.getD 0
  let currentScrollIndex :=
    match behavior with
    | .scrollToLeft =>
        -- Math.min(minVisibleIndex, minPartialIndex), the latter possibly Infinity
        match a.minPartialIndex with
        | none => minVisibleIndex
        | some p => min minVisibleIndex p
    | .scrollToMiddle => a.middleOfViewportIndex
  { currentScrollIndex := currentScrollIndex,
    isFullyScrolledLeft := decide (itemCount = 0 ∨ minVisibleIndex = 0),
    isFullyScrolledRight := decide (itemCount = 0 ∨ a.maxVisibleIndex + 1 = itemCount) }

/-- The component state fields of `ICarouselState` touched by scroll events. -/
structure ICarouselState where
  targetScrollIndex : ℤ
  currentScrollIndex : ℕ
  isFullyScrolledLeft : Bool
  isFullyScrolledRight : Bool
  deriving DecidableEq, Repr

/-- Embedding of `handleScrollEvent` (src/carousel/index.tsx lines 209-211),
which unconditionally calls `updateScrollState`: the returned pair is the
component state after `setState` and whether `scrollIndexChanged` fires.
The notification guard (lines 312-315) is
`currentScrollIndex !== this.props.scrollIndex && !this.animation`
(a defined `currentScrollIndex` is always `!==` an `undefined` prop). -/
def handleScrollEvent (behavior : IndexScrollBehavior) (v : ViewportInfo)
    (items : List ItemInfo) (propsScrollIndex : Option ℕ) (animation : Bool)
    (s : ICarouselState) : ICarouselState × Bool :=
  let r := updateScrollState behavior v items
  ({ targetScrollIndex := s.targetScrollIndex,
     currentScrollIndex := r.currentScrollIndex,
     isFullyScrolledLeft := r.isFullyScrolledLeft,
     isFullyScrolledRight := r.isFullyScrolledRight },
   (match propsScrollIndex with
    | none => true
    | some j => decide (r.currentScrollIndex ≠ j)) && !animation)

/-! ### Specification-side index functions, used to state the scan theorems -/

/-- Index of the first fully visible item at or after position `k`. -/
def firstFullIdx (v : ViewportInfo) : ℕ → List ItemInfo → Option ℕ
  | _, [] => none
  | k, item :: rest =>
      if calculateItemVisibility v item = ItemVisibility.fullyVisible then some k
      else firstFullIdx v (k + 1) rest

/-- Index of the last fully visible item at or after position `k`. -/
def lastFullIdx (v : ViewportInfo) : ℕ → List ItemInfo → Option ℕ
  | _, [] => none
  | k, item :: rest =>
      match lastFullIdx v (k + 1) rest with
      | some j => some j
      | none =>
          if calculateItemVisibility v item = ItemVisibility.fullyVisible then some k
          else none

/-- Index of the last item straddling the viewport center at or after
position `k`. -/
def lastStraddleIdx (v : ViewportInfo) : ℕ → List ItemInfo → Option ℕ
  | _, [] => none
  | k, item :: rest =>
      match lastStraddleIdx v (k + 1) rest with
      | some j => some j
      | none => if calculateIsItemInMiddleOfViewport v item then some k else none

/-- Merge of two possibly-`Infinity` minima. -/
def optMinMerge : Option ℕ → Option ℕ → Option ℕ
  | none, o => o
  | some m, none => some m
  | some m, some j => some (min m j)

/-- Merge of a maximum accumulator with an optional candidate. -/
def optMaxMerge (m : ℕ) : Option ℕ → ℕ
  | none => m
  | some j => max m j

/-! ## Paging (src/carousel/index.tsx `scrollToItem` / `scrollLeft` /
`scrollRight`)

These methods only manipulate indices and the single in-flight animation, so
they are embedded over a small navigation state.  `scrollToItem` cancels the
in-flight animation (if any) and starts a new one toward the requested
index's offset; the animation itself is modelled separately above. -/

/-- The navigation-relevant component state: `this.state.targetScrollIndex`,
`this.state.currentScrollIndex` and whether `this.animation` is non-null. -/
structure NavState where
  targetScrollIndex : ℤ
  currentScrollIndex : ℤ
  animation : Bool
  deriving DecidableEq, Repr

/-- Embedding of `scrollToItem` (src/carousel/index.tsx lines 255-270) at the
navigation level: record the new target, cancel any in-flight animation and
start a new one (leaving exactly one animation in flight). -/
def scrollToItem (s : NavState) (targetScrollIndex : ℤ) : NavState :=
  { targetScrollIndex := targetScrollIndex,
    currentScrollIndex := s.currentScrollIndex,
    animation := true }

/-- Embedding of `scrollLeft` (src/carousel/index.tsx lines 318-329):
if an animation is in progress the "target" index is treated as if it had
already been scrolled to. -/
def scrollLeft (scrollPageSize : ℤ) (s : NavState) : NavState :=
  let currentScrollIndex :=
    if s.animation then s.targetScrollIndex else s.currentScrollIndex
  let targetScrollIndex := max 0 (currentScrollIndex - scrollPageSize)
  scrollToItem s targetScrollIndex

/-- Embedding of `scrollRight` (src/carousel/index.tsx lines 331-342). -/
def scrollRight (childrenLength : ℤ) (scrollPageSize : ℤ) (s : NavState) :
    NavState :=
  let currentScrollIndex :=
    if s.animation then s.targetScrollIndex else s.currentScrollIndex
  let targetScrollIndex := min (childrenLength - 1)
    (currentScrollIndex + scrollPageSize)
  scrollToItem s targetScrollIndex

/-! ## Item lookup errors (src/carousel/index.tsx `getItemInfo`) -/

/-- The two exceptions `getItemInfo` can throw. -/
inductive CarouselError where
  /-- `Item index out of bounds: ${index}` -/
  | indexOutOfBounds (index : ℤ)
  /-- `Tried to read item cache before item mounted` -/
  | itemCacheNotReady
  deriving DecidableEq, Repr

/-- Embedding of `getItemInfo` (src/carousel/index.tsx lines 228-238).
The cache is a JS array indexed by item position; reading past its end or
reading a `null` entry both fail the `if (!itemInfo)` test, so both map to
`none` here.  Note the range check is `index > this.props.children.length`,
not `≥`. -/
def getItemInfo (childrenLength : ℕ) (itemInfoCache : List (Option ItemInfo))
    (index : ℤ) : Except CarouselError ItemInfo :=
  if index < 0 ∨ index > (childrenLength : ℤ) then
    Except.error (CarouselError.indexOutOfBounds index)
  else
    match itemInfoCache.getD index.toNat none with
    | none => Except.error CarouselError.itemCacheNotReady
    | some itemInfo => Except.ok itemInfo

/-- A fully mounted 3-item cache used by the C9 evaluation. -/
def sampleCache : List (Option ItemInfo) :=
  [some ⟨0, 100⟩, some ⟨100, 100⟩, some ⟨200, 100⟩]

/-! # Theorems -/

/-- The code's classifier agrees with the spec's reference classifier whenever
the item's extent is non-negative (the only geometries the DOM can produce). -/
theorem visibility_eq_spec (v : ViewportInfo) (item : ItemInfo)
    (h : 0 ≤ item.itemWidth) :
    calculateItemVisibility v item = specItemVisibility v item := by
  unfold calculateItemVisibility specItemVisibility
  rcases lt_or_eq_of_le h with hpos | hzero
  · have hng : ¬ item.itemWidth ≤ 0 := not_le.mpr hpos
    simp only [hng, if_false]
    set L := item.offsetLeft with hL
    set e := item.itemWidth with he
    set vL := v.viewportLeft with hvL
    set vR := v.viewportRight with hvR
    by_cases hout : L + e < vL ∨ L > vR
    · -- outside the viewport: the raw overlap is negative, so the
      -- spec's clamped fraction is 0 and both sides classify NotVisible
      have hraw : min (L + e) vR - max L vL < 0 := by
        rcases hout with h1 | h2
        · linarith [min_le_left (L + e) vR, le_max_right L vL]
        · linarith [min_le_right (L + e) vR, le_max_left L vL]
      have hclamp : max 0 (min (L + e) vR - max L vL) = 0 :=
        max_eq_left (le_of_lt hraw)
      simp only [hout, if_true, hclamp, zero_div]
      norm_num
    · simp only [hout, if_false]
      set raw := min (L + e) vR - max L vL with hrawdef
      by_cases hrawpos : 0 ≤ raw
      · have : max 0 raw = raw := max_eq_right hrawpos
        rw [this]
      · -- negative raw overlap: code's fraction is negative, spec's is 0;
        -- both fall below the 5% threshold
        push_neg at hrawpos
        have hclamp : max 0 raw = 0 := max_eq_left (le_of_lt hrawpos)
        have hfrac : raw / e < 0 := div_neg_of_neg_of_pos hrawpos hpos
        rw [hclamp, zero_div]
        have h1 : ¬ raw / e ≥ 95 / 100 := by push_neg; linarith
        have h2 : ¬ raw / e ≥ (5 : ℚ) / 100 := by push_neg; linarith
        simp only [h1, h2, if_false]
        norm_num
  · -- zero extent: the code's fraction is 0/0 = 0 (JS: NaN), the spec's
    -- guard fires; every branch classifies NotVisible
    have hz : item.itemWidth ≤ 0 := le_of_eq hzero.symm
    simp only [hz, if_true]
    rw [← hzero]
    split_ifs with hout hf hp
    · rfl
    · exfalso; rw [div_zero] at hf; norm_num at hf
    · exfalso; rw [div_zero] at hp; norm_num at hp
    · rfl

theorem run_cons (c : AnimConfig) (s : AnimState) (e : AnimEvent)
    (evs : List AnimEvent) :
    run c s (e :: evs) = run c (applyEvent c s e) evs := rfl

/-- A settled promise stays settled, with the same value, across one event. -/
theorem applyEvent_resolved_stable (c : AnimConfig) (s : AnimState)
    (e : AnimEvent) (b : Bool) (h : s.resolved = some b) :
    (applyEvent c s e).resolved = some b := by
  cases e with
  | tick t =>
      by_cases hs : s.scheduled = true
      · simp only [applyEvent, hs, if_true, step]
        split_ifs
        · exact h
        · simp only [resolvePromise, h]
      · simp [applyEvent, hs]
        exact h
  | cancel => simp only [applyEvent, cancelAnim, resolvePromise, h]

/-- A settled promise stays settled with the same value across any trace. -/
theorem run_resolved_stable (c : AnimConfig) :
    ∀ (evs : List AnimEvent) (s : AnimState) (b : Bool),
      s.resolved = some b → (run c s evs).resolved = some b := by
  intro evs
  induction evs with
  | nil => intro s b h; exact h
  | cons e evs ih =>
      intro s b h
      rw [run_cons]
      exact ih _ b (applyEvent_resolved_stable c s e b h)

/-- Once no frame is scheduled, no later event schedules one or moves the
animated property. -/
theorem run_unscheduled_stable (c : AnimConfig) :
    ∀ (evs : List AnimEvent) (s : AnimState), s.scheduled = false →
      (run c s evs).scheduled = false ∧ (run c s evs).value = s.value := by
  intro evs
  induction evs with
  | nil => intro s h; exact ⟨h, rfl⟩
  | cons e evs ih =>
      intro s h
      rw [run_cons]
      cases e with
      | tick t =>
          have : applyEvent c s (.tick t) = s := by
            simp [applyEvent, h]
          rw [this]
          exact ih s h
      | cancel =>
          have h1 := ih (cancelAnim s) rfl
          exact ⟨h1.1, h1.2⟩

/-- Peeling one event off a completing trace. -/
theorem completesAt_cons (c : AnimConfig) (s : AnimState) (e : AnimEvent)
    (evs : List AnimEvent) :
    completesAt c s (e :: evs) ↔
      (∃ t, e = AnimEvent.tick t ∧ s.scheduled = true ∧
        c.duration < t - recordStartTime s.startTime t) ∨
      completesAt c (applyEvent c s e) evs := by
  constructor
  · rintro ⟨l₁, t, l₂, heq, hsch, hel⟩
    cases l₁ with
    | nil =>
        simp only [List.nil_append] at heq
        cases heq
        exact Or.inl ⟨t, rfl, hsch, hel⟩
    | cons e' l₁ =>
        simp only [List.cons_append, List.cons.injEq] at heq
        obtain ⟨rfl, heq⟩ := heq
        refine Or.inr ⟨l₁, t, l₂, heq, ?_, ?_⟩
        · rw [← run_cons]; exact hsch
        · rw [← run_cons]; exact hel
  · rintro (⟨t, rfl, hsch, hel⟩ | ⟨l₁, t, l₂, heq, hsch, hel⟩)
    · exact ⟨[], t, evs, rfl, hsch, hel⟩
    · refine ⟨e :: l₁, t, l₂, by rw [heq, List.cons_append], ?_, ?_⟩
      · rw [run_cons]; exact hsch
      · rw [run_cons]; exact hel

/-- From a pending state, the promise ends `some true` exactly when the trace
contains a tick that executes the natural-completion branch. -/
theorem run_resolved_true_iff (c : AnimConfig) :
    ∀ (evs : List AnimEvent) (s : AnimState), s.resolved = none →
      ((run c s evs).resolved = some true ↔ completesAt c s evs) := by
  intro evs
  induction evs with
  | nil =>
      intro s h
      apply iff_of_false
      · simp only [run, h]
        intro hc
        cases hc
      · rintro ⟨l₁, t, l₂, heq, -, -⟩
        cases l₁ <;> simp at heq
  | cons e evs ih =>
      intro s h
      rw [run_cons, completesAt_cons]
      cases e with
      | cancel =>
          have hres : (cancelAnim s).resolved = some false := by
            simp [cancelAnim, resolvePromise, h]
          apply iff_of_false
          · intro h2
            have h1 := run_resolved_stable c evs (cancelAnim s) false hres
            simp only [applyEvent] at h2
            rw [h1] at h2
            cases h2
          · rintro (⟨t, ht, -, -⟩ | ⟨l₁, t, l₂, heq, hsch, -⟩)
            · cases ht
            · have := (run_unscheduled_stable c l₁ (cancelAnim s) rfl).1
              simp only [applyEvent] at hsch
              rw [this] at hsch
              cases hsch
      | tick t =>
          by_cases hs : s.scheduled = true
          · have happ : applyEvent c s (.tick t) = step c s t := by
              simp [applyEvent, hs]
            rw [happ]
            by_cases hel : t - recordStartTime s.startTime t ≤ c.duration
            · have hres : (step c s t).resolved = none := by
                simp [step, hel, h]
              rw [ih _ hres]
              constructor
              · intro hc; exact Or.inr hc
              · rintro (⟨t', ht', -, hel'⟩ | hc)
                · cases ht'
                  exact absurd hel (not_le.mpr hel')
                · exact hc
            · push_neg at hel
              have hres : (step c s t).resolved = some true := by
                simp [step, not_le.mpr hel, resolvePromise, h]
              apply iff_of_true
              · exact run_resolved_stable c evs _ true hres
              · exact Or.inl ⟨t, rfl, hs, hel⟩
          · have hsf : s.scheduled = false := by
              revert hs; cases s.scheduled <;> simp
            have happ : applyEvent c s (.tick t) = s := by
              simp [applyEvent, hsf]
            rw [happ, ih s h]
            constructor
            · intro hc; exact Or.inr hc
            · rintro (⟨t', -, hsch, -⟩ | hc)
              · rw [hsf] at hsch; cases hsch
              · exact hc

/-- C1 (counterexample): the claim's universal agreement between
`calculateItemVisibility` and the spec's reference definition fails for an
item of negative extent: viewport `[0,500)`, item offset `100`, extent `-50`
is classified FullyVisible by the code (the two negative signs cancel in the
fraction `(-50)/(-50) = 1`) while the reference's `extent ≤ 0` guard demands
NotVisible. -/
theorem visibility_classifier_counterexample :
    calculateItemVisibility ⟨500, 0⟩ ⟨100, -50⟩ = ItemVisibility.fullyVisible ∧
    specItemVisibility ⟨500, 0⟩ ⟨100, -50⟩ = ItemVisibility.notVisible ∧
    ItemVisibility.fullyVisible ≠ ItemVisibility.notVisible := by
  refine ⟨?_, ?_, by simp⟩
  · norm_num [calculateItemVisibility, ViewportInfo.viewportRight]
  · norm_num [specItemVisibility, ViewportInfo.viewportRight]

/-- C1 (amended): for every viewport and every item of non-negative extent,
`calculateItemVisibility` matches the spec's reference definition
(`extent = 0` yields NotVisible on both sides; the clamped-overlap fraction
and the 0.95 / 0.05 thresholds coincide otherwise); and for viewport
`[0,500)` with an item at offset `450` of extent `150` the result is
PartiallyVisible (fraction `1/3`). -/
theorem visibility_classifier_matches_reference :
    (∀ (v : ViewportInfo) (item : ItemInfo), 0 ≤ item.itemWidth →
      calculateItemVisibility v item = specItemVisibility v item) ∧
    calculateItemVisibility ⟨500, 0⟩ ⟨450, 150⟩ =
      ItemVisibility.partiallyVisible := by
  refine ⟨visibility_eq_spec, ?_⟩
  norm_num [calculateItemVisibility, ViewportInfo.viewportRight]

/-- Witness for C1: the amended equivalence instantiated at viewport `[0,500)`
and an item at offset `450` of extent `150`. -/
theorem visibility_classifier_matches_reference_witness :
    calculateItemVisibility ⟨500, 0⟩ ⟨450, 150⟩ =
      specItemVisibility ⟨500, 0⟩ ⟨450, 150⟩ :=
  visibility_classifier_matches_reference.1 ⟨500, 0⟩ ⟨450, 150⟩ (by norm_num)

/-- C6: the scroll target calculator returns `target.offset` for
ToLeadingEdge, `max 0 (target.offset - (viewport.extent/2 - target.extent/2))`
for ToCenter and `max 0 (target.offset + target.extent - viewport.extent)`
for ToTrailingEdge; for viewport extent `500` and a target item at offset
`450` of extent `150`, the ToCenter result is `275`. -/
theorem scroll_offset_spec :
    (∀ (v : ViewportInfo) (item : ItemInfo),
      getScrollOffset .scrollToLeft v item = item.offsetLeft ∧
      getScrollOffset .scrollToMiddle v item =
        max 0 (item.offsetLeft - (v.viewportWidth / 2 - item.itemWidth / 2)) ∧
      getScrollOffset .scrollToRight v item =
        max 0 (item.offsetLeft + item.itemWidth - v.viewportWidth)) ∧
    getScrollOffset .scrollToMiddle ⟨500, 0⟩ ⟨450, 150⟩ = 275 := by
  refine ⟨fun v item => ⟨rfl, rfl, rfl⟩, ?_⟩
  norm_num [getScrollOffset]

/-- C10: for positive duration, `easeInOutQuad` starts at the start value and
reaches exactly `start + delta` at `time = duration` in exact arithmetic. -/
theorem ease_in_out_quad_endpoints (start delta duration : ℚ)
    (h : 0 < duration) :
    easeInOutQuad 0 start delta duration = start ∧
    easeInOutQuad duration start delta duration = start + delta := by
  have hne : duration ≠ 0 := ne_of_gt h
  constructor
  · unfold easeInOutQuad
    rw [zero_div]
    norm_num
  · unfold easeInOutQuad
    have h2 : duration / (duration / 2) = 2 := by
      field_simp
    rw [h2]
    norm_num
    ring

/-- Witness for C10: endpoints of the easing at start `10`, delta `20`,
duration `300`. -/
theorem ease_in_out_quad_endpoints_witness :
    easeInOutQuad 0 10 20 300 = 10 ∧
    easeInOutQuad 300 10 20 300 = 10 + 20 :=
  ease_in_out_quad_endpoints 10 20 300 (by norm_num)



/-- C2: on every tick of a started animation, with `st` the recorded start
timestamp and `elapsed = timestamp - st`: while `elapsed ≤ duration` the tick
writes `f(elapsed, start, target - start, duration)` to the animated property
and keeps a next frame scheduled, leaving the completion signal untouched;
a tick with `elapsed > duration` writes exactly the target value, schedules
no further frame, and resolves the pending completion signal with `true`. -/
theorem animator_step_contract (c : AnimConfig) (s : AnimState)
    (timestamp : ℚ) :
    (timestamp - recordStartTime s.startTime timestamp ≤ c.duration →
      (step c s timestamp).value =
        c.easingFunction (timestamp - recordStartTime s.startTime timestamp)
          c.fromValue (c.toValue - c.fromValue) c.duration ∧
      (step c s timestamp).scheduled = true ∧
      (step c s timestamp).resolved = s.resolved) ∧
    (c.duration < timestamp - recordStartTime s.startTime timestamp →
      (step c s timestamp).value = c.toValue ∧
      (step c s timestamp).scheduled = false ∧
      (s.resolved = none → (step c s timestamp).resolved = some true)) := by
  constructor
  · intro h
    simp [step, AnimConfig.delta, h]
  · intro h
    have hn : ¬ timestamp - recordStartTime s.startTime timestamp ≤ c.duration :=
      not_le.mpr h
    refine ⟨?_, ?_, ?_⟩
    · simp [step, hn]
    · simp [step, hn]
    · intro hr
      simp [step, hn, resolvePromise, hr]

/-- Witness for C2: the first tick of the sample animation at timestamp
`120` (elapsed `0 ≤ 300`) writes the eased value and stays scheduled. -/
theorem animator_step_contract_witness :
    (step sampleConfig (initAnimState 0) 120).value =
      easeInOutQuad (120 - recordStartTime (initAnimState 0).startTime 120)
        0 (100 - 0) 300 ∧
    (step sampleConfig (initAnimState 0) 120).scheduled = true ∧
    (step sampleConfig (initAnimState 0) 120).resolved =
      (initAnimState 0).resolved :=
  (animator_step_contract sampleConfig (initAnimState 0) 120).1
    (by norm_num [recordStartTime, initAnimState, sampleConfig])

/-- C3: the cancellation contract of an animation handle.  In order: `cancel`
is idempotent; it never writes the animated property and leaves no frame
scheduled; it resolves a pending completion signal with `false`; after
natural completion it is a no-op; a settled completion signal never changes
again under any further ticks or cancels (it settles at most once); after a
`cancel` the animated property never moves again in any continuation; and,
from the freshly started state, the completion signal ends up `true` exactly
when the trace contains a tick that ran the natural-completion branch. -/
theorem animator_cancel_contract (c : AnimConfig) :
    (∀ s : AnimState, cancelAnim (cancelAnim s) = cancelAnim s) ∧
    (∀ s : AnimState,
      (cancelAnim s).value = s.value ∧ (cancelAnim s).scheduled = false) ∧
    (∀ s : AnimState, s.resolved = none →
      (cancelAnim s).resolved = some false) ∧
    (∀ s : AnimState, s.resolved = some true → s.scheduled = false →
      cancelAnim s = s) ∧
    (∀ (s : AnimState) (evs : List AnimEvent) (b : Bool),
      s.resolved = some b → (run c s evs).resolved = some b) ∧
    (∀ (s : AnimState) (evs : List AnimEvent),
      (run c (cancelAnim s) evs).value = s.value) ∧
    (∀ evs : List AnimEvent,
      (run c (initAnimState c.fromValue) evs).resolved = some true ↔
        completesAt c (initAnimState c.fromValue) evs) := by
  refine ⟨?_, ?_, ?_, ?_, ?_, ?_, ?_⟩
  · intro s
    cases s with
    | mk st sch r v => cases r <;> rfl
  · intro s
    exact ⟨rfl, rfl⟩
  · intro s h
    simp [cancelAnim, resolvePromise, h]
  · intro s h1 h2
    cases s with
    | mk st sch r v =>
        dsimp at h1 h2
        subst h1
        subst h2
        rfl
  · exact fun s evs b h => run_resolved_stable c evs s b h
  · intro s evs
    exact (run_unscheduled_stable c evs (cancelAnim s) rfl).2
  · intro evs
    exact run_resolved_true_iff c evs _ rfl

/-- Witness for C3: cancelling the freshly started sample animation resolves
its pending completion signal with `false`. -/
theorem animator_cancel_contract_witness :
    (cancelAnim (initAnimState 0)).resolved = some false :=
  (animator_cancel_contract sampleConfig).2.2.1 (initAnimState 0) rfl



theorem firstFullIdx_le (v : ViewportInfo) :
    ∀ (its : List ItemInfo) (k j : ℕ), firstFullIdx v k its = some j → k ≤ j := by
  intro its
  induction its with
  | nil => intro k j h; cases h
  | cons it rest ih =>
      intro k j h
      unfold firstFullIdx at h
      split_ifs at h with hv
      · cases h; exact le_refl _
      · exact le_trans (Nat.le_succ k) (ih (k + 1) j h)

theorem lastFullIdx_le (v : ViewportInfo) :
    ∀ (its : List ItemInfo) (k j : ℕ), lastFullIdx v k its = some j → k ≤ j := by
  intro its
  induction its with
  | nil => intro k j h; cases h
  | cons it rest ih =>
      intro k j h
      unfold lastFullIdx at h
      cases hres : lastFullIdx v (k + 1) rest with
      | some j' =>
          rw [hres] at h
          cases h
          exact le_trans (Nat.le_succ k) (ih (k + 1) j hres)
      | none =>
          rw [hres] at h
          split_ifs at h with hv
          cases h
          exact le_refl _

theorem scan_minVisible (v : ViewportInfo) :
    ∀ (its : List ItemInfo) (k : ℕ) (a : ScanAcc),
      (scanItems v k its a).minVisibleIndex =
        optMinMerge a.minVisibleIndex (firstFullIdx v k its) := by
  intro its
  induction its with
  | nil =>
      intro k a
      unfold scanItems firstFullIdx
      cases a.minVisibleIndex <;> rfl
  | cons it rest ih =>
      intro k a
      unfold scanItems firstFullIdx
      rw [ih]
      have hstep : (scanStep v k it a).minVisibleIndex =
          if calculateItemVisibility v it = ItemVisibility.fullyVisible then
            jsMinIdx a.minVisibleIndex k
          else a.minVisibleIndex := by
        unfold scanStep
        cases hv : calculateItemVisibility v it <;>
          split_ifs <;> simp_all
      rw [hstep]
      split_ifs with hv
      · -- head fully visible
        cases ha : a.minVisibleIndex with
        | none =>
            cases hf : firstFullIdx v (k + 1) rest with
            | none => simp [jsMinIdx, optMinMerge]
            | some j =>
                have hkj : k + 1 ≤ j := firstFullIdx_le v rest (k + 1) j hf
                simp only [jsMinIdx, optMinMerge, Option.some.injEq]
                omega
        | some m =>
            cases hf : firstFullIdx v (k + 1) rest with
            | none => simp [jsMinIdx, optMinMerge]
            | some j =>
                have hkj : k + 1 ≤ j := firstFullIdx_le v rest (k + 1) j hf
                simp only [jsMinIdx, optMinMerge, Option.some.injEq]
                omega
      · rfl

theorem scan_maxVisible (v : ViewportInfo) :
    ∀ (its : List ItemInfo) (k : ℕ) (a : ScanAcc),
      (scanItems v k its a).maxVisibleIndex =
        optMaxMerge a.maxVisibleIndex (lastFullIdx v k its) := by
  intro its
  induction its with
  | nil => intro k a; rfl
  | cons it rest ih =>
      intro k a
      unfold scanItems lastFullIdx
      rw [ih]
      have hstep : (scanStep v k it a).maxVisibleIndex =
          if calculateItemVisibility v it = ItemVisibility.fullyVisible then
            max a.maxVisibleIndex k
          else a.maxVisibleIndex := by
        unfold scanStep
        cases hv : calculateItemVisibility v it <;> split_ifs <;> simp_all
      rw [hstep]
      cases hres : lastFullIdx v (k + 1) rest with
      | some j =>
          have hkj : k + 1 ≤ j := lastFullIdx_le v rest (k + 1) j hres
          split_ifs with hv
          · simp only [optMaxMerge]
            omega
          · rfl
      | none =>
          split_ifs with hv
          · simp only [optMaxMerge]
          · rfl

theorem scan_middle (v : ViewportInfo) :
    ∀ (its : List ItemInfo) (k : ℕ) (a : ScanAcc),
      (scanItems v k its a).middleOfViewportIndex =
        (lastStraddleIdx v k its).getD a.middleOfViewportIndex := by
  intro its
  induction its with
  | nil => intro k a; rfl
  | cons it rest ih =>
      intro k a
      unfold scanItems lastStraddleIdx
      rw [ih]
      have hstep : (scanStep v k it a).middleOfViewportIndex =
          if calculateIsItemInMiddleOfViewport v it then k
          else a.middleOfViewportIndex := by
        unfold scanStep
        cases hv : calculateItemVisibility v it <;> split_ifs <;> simp_all
      rw [hstep]
      cases hres : lastStraddleIdx v (k + 1) rest with
      | some j => simp
      | none => split_ifs <;> simp

theorem firstFullIdx_none_iff (v : ViewportInfo) :
    ∀ (its : List ItemInfo) (k : ℕ), firstFullIdx v k its = none ↔
      ∀ it ∈ its, calculateItemVisibility v it ≠ ItemVisibility.fullyVisible := by
  intro its
  induction its with
  | nil => intro k; simp [firstFullIdx]
  | cons it rest ih =>
      intro k
      unfold firstFullIdx
      split_ifs with hv
      · simp [hv]
      · rw [ih]
        simp [List.forall_mem_cons, hv]

theorem lastFullIdx_none_iff (v : ViewportInfo) :
    ∀ (its : List ItemInfo) (k : ℕ), lastFullIdx v k its = none ↔
      ∀ it ∈ its, calculateItemVisibility v it ≠ ItemVisibility.fullyVisible := by
  intro its
  induction its with
  | nil => intro k; simp [lastFullIdx]
  | cons it rest ih =>
      intro k
      unfold lastFullIdx
      cases hres : lastFullIdx v (k + 1) rest with
      | some j =>
          apply iff_of_false
          · simp
          · intro hall
            have h2 := (ih (k + 1)).mpr
              (fun it' hit' => hall it' (List.mem_cons_of_mem _ hit'))
            rw [h2] at hres
            cases hres
      | none =>
          split_ifs with hv
          · apply iff_of_false
            · simp
            · intro hall
              exact hall it (List.mem_cons_self _ _) hv
          · apply iff_of_true rfl
            exact List.forall_mem_cons.mpr ⟨hv, (ih (k + 1)).mp hres⟩

theorem lastStraddleIdx_none_iff (v : ViewportInfo) :
    ∀ (its : List ItemInfo) (k : ℕ), lastStraddleIdx v k its = none ↔
      ∀ it ∈ its, calculateIsItemInMiddleOfViewport v it = false := by
  intro its
  induction its with
  | nil => intro k; simp [lastStraddleIdx]
  | cons it rest ih =>
      intro k
      unfold lastStraddleIdx
      cases hres : lastStraddleIdx v (k + 1) rest with
      | some j =>
          apply iff_of_false
          · simp
          · intro hall
            have h2 := (ih (k + 1)).mpr
              (fun it' hit' => hall it' (List.mem_cons_of_mem _ hit'))
            rw [h2] at hres
            cases hres
      | none =>
          split_ifs with hv
          · apply iff_of_false
            · simp
            · intro hall
              rw [hall it (List.mem_cons_self _ _)] at hv
              cases hv
          · apply iff_of_true rfl
            refine List.forall_mem_cons.mpr ⟨?_, (ih (k + 1)).mp hres⟩
            revert hv; cases calculateIsItemInMiddleOfViewport v it <;> simp

theorem lastFullIdx_ub (v : ViewportInfo) :
    ∀ (its : List ItemInfo) (k j : ℕ), lastFullIdx v k its = some j →
      j < k + its.length := by
  intro its
  induction its with
  | nil => intro k j h; cases h
  | cons it rest ih =>
      intro k j h
      unfold lastFullIdx at h
      cases hres : lastFullIdx v (k + 1) rest with
      | some j' =>
          rw [hres] at h
          cases h
          have := ih (k + 1) j hres
          simp only [List.length_cons]
          omega
      | none =>
          rw [hres] at h
          split_ifs at h with hv
          cases h
          simp only [List.length_cons]
          omega

theorem lastFullIdx_cons (v : ViewportInfo) (it : ItemInfo)
    (rest : List ItemInfo) (k : ℕ) :
    lastFullIdx v k (it :: rest) =
      match lastFullIdx v (k + 1) rest with
      | some j => some j
      | none =>
          if calculateItemVisibility v it = ItemVisibility.fullyVisible then
            some k
          else none := rfl

theorem lastFullIdx_concat (v : ViewportInfo) :
    ∀ (its : List ItemInfo) (a : ItemInfo) (k : ℕ),
      lastFullIdx v k (its ++ [a]) =
        if calculateItemVisibility v a = ItemVisibility.fullyVisible then
          some (k + its.length)
        else lastFullIdx v k its := by
  intro its
  induction its with
  | nil =>
      intro a k
      simp only [List.nil_append, List.length_nil, Nat.add_zero]
      unfold lastFullIdx
      split_ifs <;> rfl
  | cons it rest ih =>
      intro a k
      simp only [List.cons_append]
      rw [lastFullIdx_cons, ih a (k + 1)]
      by_cases hva : calculateItemVisibility v a = ItemVisibility.fullyVisible
      · rw [if_pos hva, if_pos hva]
        dsimp only
        simp only [List.length_cons]
        congr 1
        omega
      · rw [if_neg hva, if_neg hva, lastFullIdx_cons]

theorem lastStraddleIdx_eq_some (v : ViewportInfo) :
    ∀ (its : List ItemInfo) (k i : ℕ) (h : i < its.length),
      calculateIsItemInMiddleOfViewport v (its.get ⟨i, h⟩) = true →
      (∀ (i' : ℕ) (h' : i' < its.length), i < i' →
        calculateIsItemInMiddleOfViewport v (its.get ⟨i', h'⟩) = false) →
      lastStraddleIdx v k its = some (k + i) := by
  intro its
  induction its with
  | nil => intro k i h; cases h
  | cons it rest ih =>
      intro k i h hstr hafter
      cases i with
      | zero =>
          have hrest : lastStraddleIdx v (k + 1) rest = none := by
            rw [lastStraddleIdx_none_iff]
            intro it' hit'
            obtain ⟨⟨i'', hi''⟩, hget⟩ := List.mem_iff_get.mp hit'
            have := hafter (i'' + 1) (by simpa using Nat.succ_lt_succ hi'')
              (Nat.succ_pos i'')
            rw [← hget]
            exact this
          unfold lastStraddleIdx
          rw [hrest]
          simp only [List.get] at hstr
          rw [if_pos hstr]
          dsimp only
          norm_num
      | succ i0 =>
          have h0 : i0 < rest.length := by
            simpa using Nat.lt_of_succ_lt_succ h
          have hstr' : calculateIsItemInMiddleOfViewport v
              (rest.get ⟨i0, h0⟩) = true := hstr
          have hafter' : ∀ (i' : ℕ) (h' : i' < rest.length), i0 < i' →
              calculateIsItemInMiddleOfViewport v (rest.get ⟨i', h'⟩) = false := by
            intro i' h' hlt
            exact hafter (i' + 1) (by simpa using Nat.succ_lt_succ h')
              (Nat.succ_lt_succ hlt)
          have hres := ih (k + 1) i0 h0 hstr' hafter'
          unfold lastStraddleIdx
          rw [hres]
          dsimp only
          congr 1
          omega

theorem updateScrollState_middle_eq (v : ViewportInfo) (items : List ItemInfo) :
    (updateScrollState .scrollToMiddle v items).currentScrollIndex =
      (lastStraddleIdx v 0 items).getD 0 := by
  unfold updateScrollState
  dsimp only
  rw [scan_middle]
  rfl

theorem updateScrollState_left_flag (behavior : IndexScrollBehavior)
    (v : ViewportInfo) (items : List ItemInfo) :
    (updateScrollState behavior v items).isFullyScrolledLeft =
      decide (items.length = 0 ∨ (firstFullIdx v 0 items).getD 0 = 0) := by
  unfold updateScrollState
  dsimp only
  rw [scan_minVisible]
  rfl

theorem updateScrollState_right_flag (behavior : IndexScrollBehavior)
    (v : ViewportInfo) (items : List ItemInfo) :
    (updateScrollState behavior v items).isFullyScrolledRight =
      decide (items.length = 0 ∨
        optMaxMerge 0 (lastFullIdx v 0 items) + 1 = items.length) := by
  unfold updateScrollState
  dsimp only
  rw [scan_maxVisible]
  rfl

/-- C8: under the ToCenter behavior the resolved current index is the index
of the item whose span contains the viewport center (the straddle test is
`offset ≤ center ≤ offset + extent`), the last matching index of the forward
scan winning when several straddle, and `0` when no item straddles. -/
theorem middle_index_resolution (v : ViewportInfo) (items : List ItemInfo) :
    (∀ item : ItemInfo, calculateIsItemInMiddleOfViewport v item = true ↔
      (item.offsetLeft ≤ v.viewportCenter ∧
        v.viewportCenter ≤ item.offsetLeft + item.itemWidth)) ∧
    ((∀ it ∈ items, calculateIsItemInMiddleOfViewport v it = false) →
      (updateScrollState .scrollToMiddle v items).currentScrollIndex = 0) ∧
    (∀ (i : ℕ) (h : i < items.length),
      calculateIsItemInMiddleOfViewport v (items.get ⟨i, h⟩) = true →
      (∀ (i' : ℕ) (h' : i' < items.length), i < i' →
        calculateIsItemInMiddleOfViewport v (items.get ⟨i', h'⟩) = false) →
      (updateScrollState .scrollToMiddle v items).currentScrollIndex = i) := by
  refine ⟨?_, ?_, ?_⟩
  · intro item
    unfold calculateIsItemInMiddleOfViewport
    simp [ge_iff_le]
  · intro hall
    rw [updateScrollState_middle_eq,
      (lastStraddleIdx_none_iff v items 0).mpr hall]
    rfl
  · intro i h hstr hafter
    rw [updateScrollState_middle_eq,
      lastStraddleIdx_eq_some v items 0 i h hstr hafter]
    simp

/-- Witness for C8: in a two-item carousel with viewport `[100,200)` the
second item straddles the center (at `150`), so the resolved index is `1`. -/
theorem middle_index_resolution_witness :
    (updateScrollState .scrollToMiddle ⟨100, 100⟩
      [⟨0, 100⟩, ⟨100, 100⟩]).currentScrollIndex = 1 :=
  (middle_index_resolution ⟨100, 100⟩ [⟨0, 100⟩, ⟨100, 100⟩]).2.2 1
    (by norm_num)
    (by
      show calculateIsItemInMiddleOfViewport ⟨100, 100⟩ ⟨100, 100⟩ = true
      norm_num [calculateIsItemInMiddleOfViewport, ViewportInfo.viewportCenter])
    (by
      intro i' h' hlt
      simp only [List.length_cons, List.length_nil] at h'
      omega)

/-- C4 (amended): the code's boundary flags, for every behavior, viewport and
item list.  `isFullyScrolledLeft` holds iff the list is empty, or item 0 is
FullyVisible, or no item at all is FullyVisible (the `Infinity` sentinel is
replaced by `0`, which then satisfies the `== 0` comparison).
`isFullyScrolledRight` holds iff the list is empty, or the last item is
FullyVisible, or the list has exactly one item and no item is FullyVisible
(the max accumulator starts at `0`, so with no fully visible item it equals
`itemCount - 1` exactly when `itemCount = 1`). -/
theorem boundary_flags_amended (behavior : IndexScrollBehavior)
    (v : ViewportInfo) (items : List ItemInfo) :
    ((updateScrollState behavior v items).isFullyScrolledLeft = true ↔
      (items.length = 0 ∨
       (∃ it, items.head? = some it ∧
          calculateItemVisibility v it = ItemVisibility.fullyVisible) ∨
       (∀ it ∈ items,
          calculateItemVisibility v it ≠ ItemVisibility.fullyVisible))) ∧
    ((updateScrollState behavior v items).isFullyScrolledRight = true ↔
      (items.length = 0 ∨
       (∃ it, items.getLast? = some it ∧
          calculateItemVisibility v it = ItemVisibility.fullyVisible) ∨
       (items.length = 1 ∧ ∀ it ∈ items,
          calculateItemVisibility v it ≠ ItemVisibility.fullyVisible))) := by
  constructor
  · rw [updateScrollState_left_flag, decide_eq_true_iff]
    cases items with
    | nil => simp
    | cons it rest =>
        by_cases hv : calculateItemVisibility v it = ItemVisibility.fullyVisible
        · have hF : firstFullIdx v 0 (it :: rest) = some 0 := by
            unfold firstFullIdx
            rw [if_pos hv]
          rw [hF]
          apply iff_of_true
          · exact Or.inr rfl
          · exact Or.inr (Or.inl ⟨it, rfl, hv⟩)
        · have hF : firstFullIdx v 0 (it :: rest) = firstFullIdx v 1 rest := by
            simp only [firstFullIdx]
            rw [if_neg hv]
          rw [hF]
          cases hFr : firstFullIdx v 1 rest with
          | none =>
              have hall := (firstFullIdx_none_iff v rest 1).mp hFr
              apply iff_of_true
              · exact Or.inr rfl
              · exact Or.inr (Or.inr (List.forall_mem_cons.mpr ⟨hv, hall⟩))
          | some j =>
              have hj : 1 ≤ j := firstFullIdx_le v rest 1 j hFr
              apply iff_of_false
              · rintro (h0 | h0)
                · simp at h0
                · simp only [Option.getD_some] at h0
                  omega
              · rintro (h0 | ⟨it', heq, hv'⟩ | hall)
                · simp at h0
                · rw [List.head?_cons] at heq
                  injection heq with heq'
                  subst heq'
                  exact hv hv'
                · have h2 := (firstFullIdx_none_iff v rest 1).mpr
                    (fun it' hit' => hall it' (List.mem_cons_of_mem _ hit'))
                  rw [h2] at hFr
                  cases hFr
  · rw [updateScrollState_right_flag, decide_eq_true_iff]
    rcases List.eq_nil_or_concat items with rfl | ⟨l, a, rfl⟩
    · simp
    · simp only [List.concat_eq_append]
      have hlen : (l ++ [a]).length = l.length + 1 := by simp
      have hlast : (l ++ [a]).getLast? = some a := by
        simp [List.getLast?_concat]
      rw [lastFullIdx_concat]
      by_cases hva : calculateItemVisibility v a = ItemVisibility.fullyVisible
      · rw [if_pos hva]
        apply iff_of_true
        · refine Or.inr ?_
          simp only [optMaxMerge, hlen]
          omega
        · exact Or.inr (Or.inl ⟨a, hlast, hva⟩)
      · rw [if_neg hva]
        have hamem : ∀ it' ∈ [a],
            calculateItemVisibility v it' ≠ ItemVisibility.fullyVisible := by
          intro it' hit'
          rw [List.mem_singleton] at hit'
          subst hit'
          exact hva
        cases hLl : lastFullIdx v 0 l with
        | none =>
            have halll := (lastFullIdx_none_iff v l 0).mp hLl
            have hallc : ∀ it' ∈ l ++ [a],
                calculateItemVisibility v it' ≠ ItemVisibility.fullyVisible := by
              intro it' hit'
              rcases List.mem_append.mp hit' with h | h
              · exact halll it' h
              · exact hamem it' h
            constructor
            · rintro (h0 | h0)
              · rw [hlen] at h0; cases h0
              · refine Or.inr (Or.inr ⟨?_, hallc⟩)
                simp only [optMaxMerge] at h0
                omega
            · rintro (h0 | ⟨it', heq, hv'⟩ | ⟨hlen1, -⟩)
              · rw [hlen] at h0; cases h0
              · rw [hlast] at heq
                injection heq with heq'
                subst heq'
                exact absurd hv' hva
              · refine Or.inr ?_
                simp only [optMaxMerge]
                omega
        | some j =>
            have hub : j < 0 + l.length := lastFullIdx_ub v l 0 j hLl
            have hlfull : ¬ ∀ it' ∈ l,
                calculateItemVisibility v it' ≠ ItemVisibility.fullyVisible := by
              intro hall
              rw [(lastFullIdx_none_iff v l 0).mpr hall] at hLl
              cases hLl
            apply iff_of_false
            · rintro (h0 | h0)
              · rw [hlen] at h0; cases h0
              · simp only [optMaxMerge] at h0
                rw [hlen] at h0
                omega
            · rintro (h0 | ⟨it', heq, hv'⟩ | ⟨-, hall⟩)
              · rw [hlen] at h0; cases h0
              · rw [hlast] at heq
                injection heq with heq'
                subst heq'
                exact absurd hv' hva
              · exact hlfull
                  (fun it' hit' => hall it' (List.mem_append.mpr (Or.inl hit')))

/-- C4 (counterexample): with one item entirely outside the viewport nothing
is FullyVisible, yet both flags are true — the replaced sentinel `0` passes
the leading comparison and the `0`-initialised max accumulator equals
`itemCount - 1 = 0` — contradicting the claimed iff (item 0 is not
FullyVisible and the count is not 0). -/
theorem boundary_flags_counterexample :
    (updateScrollState .scrollToLeft ⟨500, 0⟩
      [⟨1000, 100⟩]).isFullyScrolledLeft = true ∧
    (updateScrollState .scrollToLeft ⟨500, 0⟩
      [⟨1000, 100⟩]).isFullyScrolledRight = true ∧
    calculateItemVisibility ⟨500, 0⟩ ⟨1000, 100⟩ ≠ ItemVisibility.fullyVisible ∧
    ([(⟨1000, 100⟩ : ItemInfo)] : List ItemInfo).length ≠ 0 := by
  have hvis : calculateItemVisibility ⟨500, 0⟩ ⟨1000, 100⟩ =
      ItemVisibility.notVisible := by
    norm_num [calculateItemVisibility, ViewportInfo.viewportRight]
  refine ⟨?_, ?_, by rw [hvis]; simp, by simp⟩
  · rw [updateScrollState_left_flag]
    simp [firstFullIdx, hvis]
  · rw [updateScrollState_right_flag]
    simp [lastFullIdx, hvis, optMaxMerge]

/-- C7 (counterexample): a manual scroll notification arriving while an
animation is in flight still recomputes `currentScrollIndex`: with two items
and the viewport over the second one, `handleScrollEvent` moves the committed
index from `0` to `1` even though `animation = true`. -/
theorem scroll_during_animation_counterexample :
    ((handleScrollEvent .scrollToLeft ⟨100, 100⟩ [⟨0, 100⟩, ⟨100, 100⟩]
        none true ⟨0, 0, false, false⟩).1).currentScrollIndex = 1 ∧
    (⟨0, 0, false, false⟩ : ICarouselState).currentScrollIndex = 0 := by
  constructor
  · norm_num [handleScrollEvent, updateScrollState, scanItems, scanStep,
      initScanAcc, calculateItemVisibility, calculateIsItemInMiddleOfViewport,
      ViewportInfo.viewportRight, ViewportInfo.viewportCenter, jsMinIdx]
  · rfl

/-- C7 (amended): while an animation is in flight a manual scroll
notification is processed, not ignored: the state recomputation is exactly
the one performed in the idle state, and only the outward
`scrollIndexChanged` notification is suppressed. -/
theorem scroll_during_animation_amended (behavior : IndexScrollBehavior)
    (v : ViewportInfo) (items : List ItemInfo) (propsScrollIndex : Option ℕ)
    (s : ICarouselState) :
    (handleScrollEvent behavior v items propsScrollIndex true s).2 = false ∧
    (handleScrollEvent behavior v items propsScrollIndex true s).1 =
      (handleScrollEvent behavior v items propsScrollIndex false s).1 := by
  constructor
  · simp [handleScrollEvent]
  · rfl

/-- C5: a navigation request arriving while an animation is in flight bases
the new target on the cancelled animation's target index, clamped to
`[0, itemCount-1]` (for a non-negative page size and an in-range in-flight
target); the request hands a fresh animation back; and from committed index
`5` with page size `3` and at least `12` items, two Next requests in a row —
the second arriving before the first animation completes — end at target
`11`, not `8`. -/
theorem paging_compounds_from_inflight_target
    (childrenLength scrollPageSize : ℤ) (s : NavState)
    (hanim : s.animation = true)
    (hpage : 0 ≤ scrollPageSize)
    (hbase0 : 0 ≤ s.targetScrollIndex)
    (hbase1 : s.targetScrollIndex ≤ childrenLength - 1) :
    (scrollRight childrenLength scrollPageSize s).targetScrollIndex =
      min (childrenLength - 1) (max 0 (s.targetScrollIndex + scrollPageSize)) ∧
    (scrollLeft scrollPageSize s).targetScrollIndex =
      min (childrenLength - 1) (max 0 (s.targetScrollIndex - scrollPageSize)) ∧
    (scrollRight childrenLength scrollPageSize s).animation = true ∧
    (scrollLeft scrollPageSize s).animation = true ∧
    (∀ n : ℤ, 12 ≤ n →
      (scrollRight n 3 (scrollRight n 3
        (⟨0, 5, false⟩ : NavState))).targetScrollIndex = 11) := by
  refine ⟨?_, ?_, rfl, rfl, ?_⟩
  · simp only [scrollRight, scrollToItem, hanim, if_true]
    omega
  · simp only [scrollLeft, scrollToItem, hanim, if_true]
    omega
  · intro n hn
    simp only [scrollRight, scrollToItem]
    norm_num
    omega

/-- Witness for C5: with 12 items, page size 3 and an in-flight animation
targeting index 8, a Next request retargets to `11 = min 11 (8 + 3)`. -/
theorem paging_compounds_witness :
    (scrollRight 12 3 (⟨8, 5, true⟩ : NavState)).targetScrollIndex =
      min (12 - 1) (max 0 (8 + 3)) :=
  (paging_compounds_from_inflight_target 12 3 (⟨8, 5, true⟩ : NavState)
    rfl (by norm_num) (by norm_num) (by norm_num)).1

/-- C9: the range guard of `getItemInfo` uses `index > itemCount` instead of
`index ≥ itemCount`, so the out-of-range index `itemCount` itself slips past
it and instead hits the "item cache before mount" error; indices `< 0` and
`> itemCount` do raise the IndexOutOfRange error. -/
theorem get_item_info_boundary_eval :
    getItemInfo 3 sampleCache 3 = Except.error CarouselError.itemCacheNotReady ∧
    getItemInfo 3 sampleCache (-1) =
      Except.error (CarouselError.indexOutOfBounds (-1)) ∧
    getItemInfo 3 sampleCache 4 =
      Except.error (CarouselError.indexOutOfBounds 4) ∧
    CarouselError.itemCacheNotReady ≠ CarouselError.indexOutOfBounds 3 := by
  refine ⟨?_, ?_, ?_, by simp⟩ <;> rfl

end Carousel
